import Mathlib

/-
Verification of the FaaSr-Functions repository against its specification.

The definitions below are a shallow embedding, translated from the Python
sources:

  * scripts/workflow_runner.py      (WorkflowRunner: status state machine,
                                     _monitor_workflow_execution,
                                     _build_reverse_adjacency_graph)
  * FaaSr_py/vm/position.py         (does_next_action_require_vm,
                                     get_action_position)
  * FaaSr_py/vm/providers/aws.py    (start_vm, stop_vm, check_vm_status,
                                     wait_for_vm_ready)
  * FaaSr_py/builtin_functions/vm_start.py, vm_stop.py, vm_poll.py
  * faasr_backend/FaaSr_py/vm/detection.py (validate_vm_config)

External effects (S3 object probes, EC2 API responses, environment
variables, wall-clock readings) are supplied by explicit environment
records, so that every definition is executable on concrete inputs.
-/

set_option maxHeartbeats 1000000

/-- FunctionStatus mirrors the `FunctionStatus` enum of
scripts/workflow_runner.py. -/
inductive FunctionStatus where
  | pending
  | invoked
  | notInvoked
  | running
  | completed
  | failed
  | skipped
  | timeout
deriving DecidableEq, Repr

/-- StatusMap models `self.function_statuses`: a Python dict from function
name to status, embedded as an association list (dict keys are unique; key
order is insertion order). -/
abbrev StatusMap := List (String × FunctionStatus)

/-- MonitorEnv supplies the externally observed effects consulted by
`_monitor_workflow_execution`, indexed by the polling-pass number `k`:
`wasInvoked k n` is the outcome of `self._was_invoked(n)` during pass `k`,
`checkRunning` of `self._check_function_running`, `checkFailed` of
`self._check_function_failed`, `checkCompletion` of
`self._check_function_completion`; `shutdown k` is the value of
`self._shutdown_requested` around pass `k`; `tick k` is the (discretized)
value returned by `time.time()` during pass `k`. -/
structure MonitorEnv where
  wasInvoked : Nat → String → Bool
  checkRunning : Nat → String → Bool
  checkFailed : Nat → String → Bool
  checkCompletion : Nat → String → Bool
  shutdown : Nat → Bool
  tick : Nat → Nat

/-- MState is the monitor's mutable state: the status dict plus the
inactivity-timer variables `seconds_since_last_status_change` and
`last_status_change_time`. -/
structure MState where
  statuses : StatusMap
  sinceLast : Nat
  lastChange : Nat

/-- setStatus models `self.function_statuses[name] = v` on the association
list (dict keys are unique, so replacing every matching key agrees with the
Python dict update). -/
def setStatus : StatusMap → String → FunctionStatus → StatusMap
  | [], _, _ => []
  | p :: rest, n, v => (if p.1 = n then (p.1, v) else p) :: setStatus rest n v

/-- statusOf is dict lookup on the association list. -/
def statusOf : StatusMap → String → Option FunctionStatus
  | [], _ => none
  | p :: rest, n => if p.1 = n then some p.2 else statusOf rest n

/-- keysOf lists the dict keys. -/
def keysOf (l : StatusMap) : List String := l.map Prod.fst

/-- passStep is the body of the `for function_name, status in
functions_to_check` loop of `_monitor_workflow_execution` (lines 227-293),
for one snapshot entry `e`. The accumulator carries the live state and the
`failed` flag.  Note the Python nuance: a `Pending` entry whose
`_was_invoked` check is false matches the outer `if` and therefore skips
the final `else`, so the inactivity timer is not touched; every other
non-transition falls into the `else` and recomputes
`seconds_since_last_status_change`. (The `stream_logs` block only spawns
log-tailing threads and never touches statuses, so it is omitted.) -/
def passStep (env : MonitorEnv) (k : Nat) (acc : MState × Bool)
    (e : String × FunctionStatus) : MState × Bool :=
  match e.2 with
  | FunctionStatus.pending =>
    if env.wasInvoked k e.1 then
      (⟨setStatus acc.1.statuses e.1 FunctionStatus.invoked, 0, env.tick k⟩, acc.2)
    else acc
  | FunctionStatus.invoked =>
    if env.checkRunning k e.1 then
      (⟨setStatus acc.1.statuses e.1 FunctionStatus.running, 0, env.tick k⟩, acc.2)
    else (⟨acc.1.statuses, env.tick k - acc.1.lastChange, acc.1.lastChange⟩, acc.2)
  | FunctionStatus.running =>
    if env.checkFailed k e.1 then
      (⟨setStatus acc.1.statuses e.1 FunctionStatus.failed, 0, env.tick k⟩, true)
    else if env.checkCompletion k e.1 then
      (⟨setStatus acc.1.statuses e.1 FunctionStatus.completed, 0, env.tick k⟩, acc.2)
    else (⟨acc.1.statuses, env.tick k - acc.1.lastChange, acc.1.lastChange⟩, acc.2)
  | _ => (⟨acc.1.statuses, env.tick k - acc.1.lastChange, acc.1.lastChange⟩, acc.2)

/-- runPass executes one full scan pass: a snapshot of the statuses is
taken under the lock (`functions_to_check`) and the loop body is folded
over it, threading the live state and the `failed` flag (initially
`False`). -/
def runPass (env : MonitorEnv) (k : Nat) (st : MState) : MState × Bool :=
  st.statuses.foldl (passStep env k) (st, false)

/-- allCompleted models `all(status == FunctionStatus.COMPLETED for status
in self.function_statuses.values())`. -/
def allCompleted (l : StatusMap) : Bool :=
  l.all (fun p => decide (p.2 = FunctionStatus.completed))

/-- cascadeSkip models the failure cascade (lines 303-313): every
still-`PENDING` entry becomes `SKIPPED`. -/
def cascadeSkip (l : StatusMap) : StatusMap :=
  l.map (fun p =>
    if p.2 = FunctionStatus.pending then (p.1, FunctionStatus.skipped) else p)

/-- finalizeStatuses models the post-loop sweep (lines 318-328): every
entry still `PENDING` or `RUNNING` becomes `SKIPPED` when shutdown was
requested and `TIMEOUT` otherwise. -/
def finalizeStatuses (shut : Bool) (l : StatusMap) : StatusMap :=
  l.map (fun p =>
    if p.2 = FunctionStatus.pending ∨ p.2 = FunctionStatus.running then
      (p.1, if shut then FunctionStatus.skipped else FunctionStatus.timeout)
    else p)

/-- ExitReason records why the `while` loop of
`_monitor_workflow_execution` stopped iterating. -/
inductive ExitReason where
  | allCompleted
  | failureCascade
  | timedOut
  | shutdownExit
deriving DecidableEq, Repr

/-- RunResult is the outcome of one execution of
`_monitor_workflow_execution`: `final` is the status dict after the
post-loop sweep, `loopExit` the status dict at the moment the `while` loop
stopped (after a failure cascade, when one happened), `reason` why it
stopped, `passes` how many scan passes ran, and `shutdownAtExit` the value
of `_shutdown_requested` read by the post-loop sweep. -/
structure RunResult where
  final : StatusMap
  loopExit : StatusMap
  reason : ExitReason
  passes : Nat
  shutdownAtExit : Bool

/-- monitorLoop is the `while` loop of `_monitor_workflow_execution`
(lines 214-332) together with the post-loop sweep.  `fuel` bounds the
number of iterations of the model (the Python loop has no such bound;
`none` means the bound was hit, never that the code stopped).  Per
iteration: the guard `seconds_since_last_status_change < self.timeout and
not self._shutdown_requested` is tested; a scan pass runs; if every
function is `COMPLETED` the loop breaks; otherwise, if the pass saw a
failure, the cascade is applied and the loop breaks; otherwise the loop
sleeps and re-iterates.  On every exit the post-loop sweep runs with the
then-current shutdown flag. -/
def monitorLoop (env : MonitorEnv) (timeLimit : Nat) :
    Nat → Nat → MState → Option RunResult
  | 0, _, _ => none
  | fuel + 1, k, st =>
    if st.sinceLast < timeLimit ∧ env.shutdown k = false then
      if allCompleted (runPass env k st).1.statuses then
        some ⟨finalizeStatuses (env.shutdown k) (runPass env k st).1.statuses,
              (runPass env k st).1.statuses, ExitReason.allCompleted, 1,
              env.shutdown k⟩
      else if (runPass env k st).2 then
        some ⟨finalizeStatuses (env.shutdown k) (cascadeSkip (runPass env k st).1.statuses),
              cascadeSkip (runPass env k st).1.statuses, ExitReason.failureCascade, 1,
              env.shutdown k⟩
      else
        (monitorLoop env timeLimit fuel (k + 1) (runPass env k st).1).map
          (fun r => ⟨r.final, r.loopExit, r.reason, r.passes + 1, r.shutdownAtExit⟩)
    else
      some ⟨finalizeStatuses (env.shutdown k) st.statuses, st.statuses,
            if env.shutdown k then ExitReason.shutdownExit else ExitReason.timedOut, 0,
            env.shutdown k⟩

/-- initialStatuses models the constructor's initialization (lines 92-97):
the designated `FunctionInvoke` action starts `INVOKED`, all others
`PENDING`. -/
def initialStatuses (names : List String) (workflowInvoke : String) : StatusMap :=
  names.map (fun n =>
    (n, if n = workflowInvoke then FunctionStatus.invoked else FunctionStatus.pending))

/-- monitorWorkflowExecution runs the monitor from its initial state; the
inactivity timer starts at zero with `last_status_change_time` read at
entry. -/
def monitorWorkflowExecution (env : MonitorEnv) (timeLimit : Nat) (fuel : Nat)
    (names : List String) (workflowInvoke : String) : Option RunResult :=
  monitorLoop env timeLimit fuel 0 ⟨initialStatuses names workflowInvoke, 0, env.tick 0⟩

theorem statusOf_setStatus_ne (l : StatusMap) (n m : String) (v : FunctionStatus)
    (h : m ≠ n) : statusOf (setStatus l n v) m = statusOf l m := by
  induction l with
  | nil => rfl
  | cons p rest ih =>
    by_cases hp : p.1 = n
    · simp only [setStatus, if_pos hp, statusOf]
      rw [if_neg (by rw [hp]; exact fun hh => h hh.symm), if_neg (by rw [hp]; exact fun hh => h hh.symm), ih]
    · simp only [setStatus, if_neg hp, statusOf, ih]

theorem statusOf_setStatus_self (l : StatusMap) (n : String) (v : FunctionStatus)
    (h : n ∈ keysOf l) : statusOf (setStatus l n v) n = some v := by
  induction l with
  | nil => simp [keysOf] at h
  | cons p rest ih =>
    by_cases hp : p.1 = n
    · simp only [setStatus, if_pos hp, statusOf, if_pos hp]
    · simp only [setStatus, if_neg hp, statusOf, if_neg hp]
      exact ih (by
        simp only [keysOf, List.map_cons, List.mem_cons] at h
        exact h.resolve_left (fun hh => hp hh.symm))

theorem keysOf_setStatus (l : StatusMap) (n : String) (v : FunctionStatus) :
    keysOf (setStatus l n v) = keysOf l := by
  induction l with
  | nil => rfl
  | cons p rest ih =>
    by_cases hp : p.1 = n <;>
      simp only [setStatus, if_pos, if_neg, hp, keysOf, List.map_cons, ite_true,
        ite_false] <;> simp [keysOf] at ih ⊢ <;> exact ih

theorem passStep_snd_true (env : MonitorEnv) (k : Nat) (acc : MState × Bool)
    (e : String × FunctionStatus) (h : acc.2 = true) :
    (passStep env k acc e).2 = true := by
  rcases e with ⟨n, s⟩
  cases s <;> simp only [passStep] <;> (try split_ifs) <;> simp [h]

theorem passStep_statusOf_ne (env : MonitorEnv) (k : Nat) (acc : MState × Bool)
    (e : String × FunctionStatus) (m : String) (h : m ≠ e.1) :
    statusOf (passStep env k acc e).1.statuses m = statusOf acc.1.statuses m := by
  rcases e with ⟨n, s⟩
  cases s <;> simp only [passStep] <;> (try split_ifs) <;>
    simp [statusOf_setStatus_ne _ _ _ _ h]

theorem passStep_keys (env : MonitorEnv) (k : Nat) (acc : MState × Bool)
    (e : String × FunctionStatus) :
    keysOf (passStep env k acc e).1.statuses = keysOf acc.1.statuses := by
  rcases e with ⟨n, s⟩
  cases s <;> simp only [passStep] <;> (try split_ifs) <;> simp [keysOf_setStatus]

theorem passStep_new_failed (env : MonitorEnv) (k : Nat) (acc : MState × Bool)
    (e : String × FunctionStatus) (h0 : acc.2 = false)
    (h1 : (passStep env k acc e).2 = true) :
    (passStep env k acc e).1.statuses = setStatus acc.1.statuses e.1 FunctionStatus.failed := by
  rcases e with ⟨n, s⟩
  cases s <;> simp only [passStep] at h1 ⊢ <;> (try split_ifs at h1 ⊢) <;>
    simp_all

theorem foldl_failed_exists (env : MonitorEnv) (k : Nat) :
    ∀ (l : List (String × FunctionStatus)) (acc : MState × Bool),
      (l.map Prod.fst).Nodup →
      (∀ x ∈ l.map Prod.fst, x ∈ keysOf acc.1.statuses) →
      (acc.2 = true →
        ∃ n, n ∉ l.map Prod.fst ∧ statusOf acc.1.statuses n = some FunctionStatus.failed) →
      (l.foldl (passStep env k) acc).2 = true →
      ∃ n, statusOf (l.foldl (passStep env k) acc).1.statuses n = some FunctionStatus.failed := by
  intro l
  induction l with
  | nil =>
    intro acc _ _ hpre hres
    obtain ⟨n, _, hn⟩ := hpre hres
    exact ⟨n, hn⟩
  | cons e rest ih =>
    intro acc hnd hkeys hpre hres
    simp only [List.foldl_cons] at hres ⊢
    refine ih (passStep env k acc e) ?_ ?_ ?_ hres
    · exact (List.nodup_cons.mp (by simpa using hnd)).2
    · intro x hx
      rw [passStep_keys]
      exact hkeys x (by simp [hx])
    · intro h2
      by_cases ha : acc.2 = true
      · obtain ⟨n, hnin, hfail⟩ := hpre ha
        have hne : n ≠ e.1 := by
          intro hc; exact hnin (by simp [hc])
        refine ⟨n, ?_, ?_⟩
        · intro hc; exact hnin (by simp [hc])
        · rw [passStep_statusOf_ne env k acc e n hne]; exact hfail
      · have hset := passStep_new_failed env k acc e (by simpa using ha) h2
        refine ⟨e.1, ?_, ?_⟩
        · exact (List.nodup_cons.mp (by simpa using hnd)).1
        · rw [hset]
          exact statusOf_setStatus_self _ _ _ (hkeys e.1 (by simp))

theorem runPass_failed_exists (env : MonitorEnv) (k : Nat) (st : MState)
    (hnd : (keysOf st.statuses).Nodup) (hf : (runPass env k st).2 = true) :
    ∃ n, statusOf (runPass env k st).1.statuses n = some FunctionStatus.failed := by
  refine foldl_failed_exists env k st.statuses (st, false) hnd (fun x hx => hx) ?_ hf
  intro h; cases h

theorem allCompleted_eq_false_of_failed (l : StatusMap) (n : String)
    (h : statusOf l n = some FunctionStatus.failed) : allCompleted l = false := by
  induction l with
  | nil => cases h
  | cons p rest ih =>
    by_cases hp : p.1 = n
    · simp only [statusOf, if_pos hp] at h
      have : p.2 = FunctionStatus.failed := by injection h
      simp [allCompleted, this]
    · simp only [statusOf, if_neg hp] at h
      simp [allCompleted] at ih ⊢
      intro _
      exact ih h

theorem statusOf_cascadeSkip_pending (l : StatusMap) (n : String)
    (h : statusOf l n = some FunctionStatus.pending) :
    statusOf (cascadeSkip l) n = some FunctionStatus.skipped := by
  induction l with
  | nil => cases h
  | cons p rest ih =>
    by_cases hp : p.1 = n
    · simp only [statusOf, if_pos hp] at h
      have hpend : p.2 = FunctionStatus.pending := by injection h
      simp [cascadeSkip, hpend, statusOf, hp]
    · simp only [statusOf, if_neg hp] at h
      have hr := ih h
      simp only [cascadeSkip, List.map_cons] at hr ⊢
      by_cases hpend : p.2 = FunctionStatus.pending <;>
        simp [hpend, statusOf, hp, hr]

/-- C1: in `_monitor_workflow_execution`, once any action transitions to
`FAILED` during a scan pass (the pass's `failed` flag is set), every action
whose status is still `PENDING` at that instant is set to `SKIPPED`
(failure cascade) and the `while` loop breaks: the run performs exactly
this one pass, no further polling iteration, whatever fuel remains. -/
theorem monitor_failed_cascades_skip_and_halts
    (env : MonitorEnv) (timeLimit fuel k : Nat) (st : MState)
    (hnd : (keysOf st.statuses).Nodup)
    (hbudget : st.sinceLast < timeLimit)
    (hshut : env.shutdown k = false)
    (hfail : (runPass env k st).2 = true) :
    monitorLoop env timeLimit (fuel + 1) k st =
      some ⟨finalizeStatuses false (cascadeSkip (runPass env k st).1.statuses),
            cascadeSkip (runPass env k st).1.statuses, ExitReason.failureCascade, 1, false⟩ ∧
    (∀ n, statusOf (runPass env k st).1.statuses n = some FunctionStatus.pending →
      statusOf (cascadeSkip (runPass env k st).1.statuses) n = some FunctionStatus.skipped) := by
  obtain ⟨m, hm⟩ := runPass_failed_exists env k st hnd hfail
  have hac : allCompleted (runPass env k st).1.statuses = false :=
    allCompleted_eq_false_of_failed _ m hm
  constructor
  · simp only [monitorLoop]
    rw [if_pos ⟨hbudget, hshut⟩, if_neg (by simp [hac]), if_pos hfail, hshut]
  · intro n hn
    exact statusOf_cascadeSkip_pending _ n hn

/-- c1Env drives a single-pass failure scenario used as the concrete
witness input for C1. -/
def c1Env : MonitorEnv :=
  ⟨fun _ _ => false, fun _ _ => true, fun _ n => n == "a", fun _ _ => false,
   fun _ => false, fun _ => 0⟩

/-- c1St0 starts with action `a` running and action `b` pending. -/
def c1St0 : MState := ⟨[("a", FunctionStatus.running), ("b", FunctionStatus.pending)], 0, 0⟩

/-- Witness for C1 at a concrete two-action state: `a` fails during the
pass, `b` is cascaded to `SKIPPED`, and the loop stops after that pass. -/
theorem monitor_failed_cascades_skip_and_halts_witness :
    monitorLoop c1Env 100 3 0 c1St0 =
      some ⟨finalizeStatuses false (cascadeSkip (runPass c1Env 0 c1St0).1.statuses),
            cascadeSkip (runPass c1Env 0 c1St0).1.statuses, ExitReason.failureCascade, 1, false⟩ :=
  (monitor_failed_cascades_skip_and_halts c1Env 100 2 0 c1St0 (by decide)
    (by decide) (by decide) (by decide)).1

theorem statusOf_finalize (shut : Bool) (l : StatusMap) (n : String) :
    statusOf (finalizeStatuses shut l) n =
      (statusOf l n).map (fun s =>
        if s = FunctionStatus.pending ∨ s = FunctionStatus.running then
          (if shut then FunctionStatus.skipped else FunctionStatus.timeout)
        else s) := by
  induction l with
  | nil => rfl
  | cons p rest ih =>
    simp only [finalizeStatuses, List.map_cons] at ih ⊢
    by_cases hp : p.1 = n
    · by_cases hs : p.2 = FunctionStatus.pending ∨ p.2 = FunctionStatus.running <;>
        simp [hs, statusOf, hp]
    · by_cases hs : p.2 = FunctionStatus.pending ∨ p.2 = FunctionStatus.running <;>
        simp [hs, statusOf, hp, ih]

theorem monitorLoop_final_eq (env : MonitorEnv) (timeLimit : Nat) :
    ∀ (fuel k : Nat) (st : MState) (r : RunResult),
      monitorLoop env timeLimit fuel k st = some r →
      r.final = finalizeStatuses r.shutdownAtExit r.loopExit := by
  intro fuel
  induction fuel with
  | zero => intro k st r h; cases h
  | succ m ih =>
    intro k st r h
    simp only [monitorLoop] at h
    by_cases hc : st.sinceLast < timeLimit ∧ env.shutdown k = false
    · rw [if_pos hc] at h
      by_cases hall : allCompleted (runPass env k st).1.statuses
      · rw [if_pos hall] at h
        cases h; rfl
      · rw [if_neg hall] at h
        by_cases hfl : (runPass env k st).2 = true
        · rw [if_pos hfl] at h
          cases h; rfl
        · rw [if_neg hfl] at h
          rcases Option.map_eq_some'.mp h with ⟨r0, hr0, hmap⟩
          have := ih (k + 1) (runPass env k st).1 r0 hr0
          cases hmap
          exact this
    · rw [if_neg hc] at h
      cases h; rfl

/-- C2 (amended): in `_monitor_workflow_execution`, an action still
`PENDING` or `RUNNING` when the `while` loop exits is assigned `TIMEOUT`
iff shutdown was not requested — regardless of why the loop exited.  In
particular an exit caused by another action's failure (after the cascade,
which only converts `PENDING` entries) leaves the non-failed `RUNNING`
actions marked `TIMEOUT` even though the inactivity budget was never
exceeded. -/
theorem timeout_assigned_iff_pending_running_no_shutdown
    (env : MonitorEnv) (timeLimit fuel k : Nat) (st : MState) (r : RunResult)
    (n : String)
    (hrun : monitorLoop env timeLimit fuel k st = some r)
    (hpr : statusOf r.loopExit n = some FunctionStatus.pending ∨
           statusOf r.loopExit n = some FunctionStatus.running) :
    (statusOf r.final n = some FunctionStatus.timeout ↔ r.shutdownAtExit = false) := by
  rw [monitorLoop_final_eq env timeLimit fuel k st r hrun, statusOf_finalize]
  rcases hpr with h | h <;> rw [h] <;>
    cases hb : r.shutdownAtExit <;> simp

/-- c2Env drives the C2 counterexample: action `a` (the start action)
becomes running then fails on pass 1 while `b` has been invoked and is
running; no shutdown is ever requested and the clock never advances, so
the inactivity budget is never exceeded. -/
def c2Env : MonitorEnv :=
  ⟨fun _ n => n == "b", fun _ _ => true, fun _ n => n == "a", fun _ _ => false,
   fun _ => false, fun _ => 0⟩

/-- c2St0 is the monitor's initial state for a two-action workflow whose
start action is `a`. -/
def c2St0 : MState := ⟨initialStatuses ["a", "b"] "a", 0, 0⟩

/-- dummyRun is a placeholder result used only to destructure the optional
monitor outcome in closed statements. -/
def dummyRun : RunResult := ⟨[], [], ExitReason.timedOut, 0, false⟩

/-- C2 counterexample: the claim says `TimedOut` is assigned only when the
global inactivity budget is exceeded (exit reason `timedOut`) and never on
an execution that exits for another reason.  At this concrete input the
monitor exits by failure cascade (reason `failureCascade`, budget 100 never
exceeded), yet action `b`, still `RUNNING` at loop exit, ends `TIMEOUT`. -/
theorem timeout_not_only_on_budget_counterexample :
    ((monitorLoop c2Env 100 5 0 c2St0).getD dummyRun).reason = ExitReason.failureCascade ∧
    statusOf ((monitorLoop c2Env 100 5 0 c2St0).getD dummyRun).loopExit "b" =
      some FunctionStatus.running ∧
    statusOf ((monitorLoop c2Env 100 5 0 c2St0).getD dummyRun).final "b" =
      some FunctionStatus.timeout := by
  refine ⟨rfl, rfl, rfl⟩

/-- Witness for the amended C2 theorem at the same concrete input. -/
theorem timeout_assigned_iff_pending_running_no_shutdown_witness :
    (statusOf ((monitorLoop c2Env 100 5 0 c2St0).getD dummyRun).final "b" =
       some FunctionStatus.timeout ↔
     ((monitorLoop c2Env 100 5 0 c2St0).getD dummyRun).shutdownAtExit = false) :=
  timeout_assigned_iff_pending_running_no_shutdown c2Env 100 5 0 c2St0
    ((monitorLoop c2Env 100 5 0 c2St0).getD dummyRun) "b" rfl (Or.inr rfl)

/-- AdjGraph models an adjacency graph dict `name -> iterable of names`
(`self.adj_graph` / `reverse_adj_graph` in scripts/workflow_runner.py),
embedded as an association list. -/
abbrev AdjGraph := List (String × List String)

/-- hasEdge g x y holds when the graph dict `g` has an entry for `x` whose
successor collection contains `y` (an edge x→y). -/
def hasEdge (g : AdjGraph) (x y : String) : Bool :=
  g.any (fun p => x == p.1 && p.2.contains y)

/-- addInvoker models `reverse_adj_graph[function].add(invoker)` on the
association-list embedding of the `defaultdict(set)`: the entry for
`function` is created on demand and `invoker` is added with set semantics. -/
def addInvoker : AdjGraph → String → String → AdjGraph
  | [], f, i => [(f, [i])]
  | (m, l) :: rest, f, i =>
    if m = f then (m, if l.contains i then l else i :: l) :: rest
    else (m, l) :: addInvoker rest f i

/-- buildReverseAdjacencyGraph is `_build_reverse_adjacency_graph`
(scripts/workflow_runner.py lines 193-199): for every `invoker` with
successor set `invoked` in the forward graph and every `function` in
`invoked`, add `invoker` to `reverse_adj_graph[function]`. -/
def buildReverseAdjacencyGraph (adj : AdjGraph) : AdjGraph :=
  adj.foldl (fun rev p => p.2.foldl (fun r tgt => addInvoker r tgt p.1) rev) []

/-- EdgeIn g x y is the propositional form of `hasEdge`: some entry of `g`
has key `x` and contains `y` among its successors. -/
def EdgeIn (g : AdjGraph) (x y : String) : Prop :=
  ∃ p ∈ g, x = p.1 ∧ y ∈ p.2

theorem hasEdge_iff (g : AdjGraph) (x y : String) :
    hasEdge g x y = true ↔ EdgeIn g x y := by
  simp [hasEdge, EdgeIn, List.any_eq_true]

theorem EdgeIn_cons (m : String) (l : List String) (rest : AdjGraph) (x y : String) :
    EdgeIn ((m, l) :: rest) x y ↔ (x = m ∧ y ∈ l) ∨ EdgeIn rest x y := by
  simp [EdgeIn]

theorem EdgeIn_addInvoker (rev : AdjGraph) (f i x y : String) :
    EdgeIn (addInvoker rev f i) x y ↔ EdgeIn rev x y ∨ (x = f ∧ y = i) := by
  induction rev with
  | nil => simp [addInvoker, EdgeIn]
  | cons p rest ih =>
    rcases p with ⟨m, l⟩
    simp only [addInvoker]
    by_cases hmf : m = f
    · subst hmf
      rw [if_pos rfl]
      by_cases hcl : l.contains i
      · rw [if_pos hcl]
        have hmem : i ∈ l := by simpa using hcl
        rw [EdgeIn_cons]
        constructor
        · exact fun hh => Or.inl hh
        · rintro (hh | ⟨hx, hy⟩)
          · exact hh
          · exact Or.inl ⟨hx, hy ▸ hmem⟩
      · rw [if_neg hcl]
        rw [EdgeIn_cons, EdgeIn_cons]
        simp only [List.mem_cons]
        tauto
    · rw [if_neg hmf]
      rw [EdgeIn_cons, EdgeIn_cons, ih]
      tauto

theorem EdgeIn_foldl_targets (inv x y : String) :
    ∀ (succs : List String) (rev : AdjGraph),
      EdgeIn (succs.foldl (fun r tgt => addInvoker r tgt inv) rev) x y ↔
        EdgeIn rev x y ∨ (x ∈ succs ∧ y = inv) := by
  intro succs
  induction succs with
  | nil => simp
  | cons t ts ih =>
    intro rev
    simp only [List.foldl_cons, ih, EdgeIn_addInvoker, List.mem_cons]
    tauto

theorem EdgeIn_buildReverse_foldl (x y : String) :
    ∀ (adj : AdjGraph) (rev : AdjGraph),
      EdgeIn (adj.foldl (fun rev p => p.2.foldl (fun r tgt => addInvoker r tgt p.1) rev) rev) x y ↔
        EdgeIn rev x y ∨ EdgeIn adj y x := by
  intro adj
  induction adj with
  | nil => simp [EdgeIn]
  | cons p ps ih =>
    intro rev
    rcases p with ⟨m, l⟩
    simp only [List.foldl_cons, ih, EdgeIn_foldl_targets, EdgeIn_cons]
    tauto

/-- C3: the reverse adjacency graph built by
`_build_reverse_adjacency_graph` is exactly the transpose of the forward
graph: for all names `a`, `b`, the reverse graph has the edge b→a iff the
forward graph has the edge a→b, so every forward edge is transposed and no
extra reverse edge exists. -/
theorem reverse_adjacency_is_transpose (adj : AdjGraph) (a b : String) :
    hasEdge (buildReverseAdjacencyGraph adj) b a = hasEdge adj a b := by
  have h : EdgeIn (buildReverseAdjacencyGraph adj) b a ↔ EdgeIn adj a b := by
    rw [buildReverseAdjacencyGraph, EdgeIn_buildReverse_foldl]
    simp [EdgeIn]
  have h2 : (hasEdge (buildReverseAdjacencyGraph adj) b a = true) ↔
      (hasEdge adj a b = true) :=
    (hasEdge_iff _ _ _).trans (h.trans (hasEdge_iff _ _ _).symm)
  cases hx : hasEdge (buildReverseAdjacencyGraph adj) b a <;>
    cases hy : hasEdge adj a b <;> simp_all

/-- InvokeNext models the JSON value of an action's `InvokeNext` field: a
single string, a list of names, or a conditional dict with optional
`True`/`False` branches (each branch a list of names). -/
inductive InvokeNext where
  | str : String → InvokeNext
  | list : List String → InvokeNext
  | cond : Option (List String) → Option (List String) → InvokeNext
deriving DecidableEq, Repr

/-- ActionConfig models one entry of `ActionList`: its optional
`InvokeNext` value (`none` when the key is absent) and its `RequiresVM`
flag (`.get("RequiresVM", False)`).  Other fields are not consulted by the
functions embedded here. -/
structure ActionConfig where
  invokeNext : Option InvokeNext
  requiresVM : Bool
deriving DecidableEq, Repr

/-- ActionList models the `ActionList` dict of the workflow payload. -/
abbrev ActionList := List (String × ActionConfig)

/-- lookupA is dict lookup on the action list. -/
def lookupA : ActionList → String → Option ActionConfig
  | [], _ => none
  | p :: rest, n => if p.1 = n then some p.2 else lookupA rest n

/-- actionGet models `action_list.get(name, {})`: a missing action behaves
as an empty config (no `InvokeNext`, `RequiresVM` false). -/
def actionGet (al : ActionList) (n : String) : ActionConfig :=
  (lookupA al n).getD ⟨none, false⟩

/-- codeNextActions is the successor normalization performed by
`does_next_action_require_vm` (FaaSr_py/vm/position.py lines 22-28): a
missing `InvokeNext` defaults to `[]`; a single string becomes a singleton
list; a list is kept; anything else — in particular a conditional dict —
becomes `[]`. -/
def codeNextActions : Option InvokeNext → List String
  | some (InvokeNext.str s) => [s]
  | some (InvokeNext.list l) => l
  | _ => []

/-- does_next_action_require_vm (FaaSr_py/vm/position.py lines 9-35):
true when some action in the normalized `InvokeNext` of `current` has
`RequiresVM` set. -/
def does_next_action_require_vm (al : ActionList) (current : String) : Bool :=
  (codeNextActions (actionGet al current).invokeNext).any
    (fun n => (actionGet al n).requiresVM)

/-- Modelled from the spec (refinement comparison only): the flattened
successor set described in spec.md sections 4.1-4.2, where conditional
`True`/`False`-branch maps are flattened into the union of both
branches. -/
def specSuccessors : Option InvokeNext → List String
  | some (InvokeNext.str s) => [s]
  | some (InvokeNext.list l) => l
  | some (InvokeNext.cond t f) => t.getD [] ++ f.getD []
  | none => []

/-- Modelled from the spec (refinement comparison only):
`next_requires_resource(action)` per spec.md section 4.2 — true iff any
immediate successor in the flattened forward graph is resource-requiring. -/
def specNextRequiresResource (al : ActionList) (current : String) : Bool :=
  (specSuccessors (actionGet al current).invokeNext).any
    (fun n => (actionGet al n).requiresVM)

/-- isCondNext recognizes a conditional (dict-valued) `InvokeNext`. -/
def isCondNext : Option InvokeNext → Bool
  | some (InvokeNext.cond _ _) => true
  | _ => false

/-- c4Al is a two-action workflow whose first action invokes `b` through a
conditional `True` branch, with `b` requiring the VM. -/
def c4Al : ActionList :=
  [("a", ⟨some (InvokeNext.cond (some ["b"]) none), false⟩),
   ("b", ⟨none, true⟩)]

/-- C4 counterexample: the claim says `does_next_action_require_vm`
flattens conditional `True`/`False`-branch maps into the successor set.
In `c4Al`, action `a`'s only successor `b` (reached through the `True`
branch) requires the VM, so the claimed flattened semantics answers true,
yet the code answers false: the `isinstance` chain maps a dict-valued
`InvokeNext` to the empty successor list. -/
theorem next_requires_vm_ignores_cond_counterexample :
    does_next_action_require_vm c4Al "a" = false ∧
    specNextRequiresResource c4Al "a" = true := by
  constructor <;> rfl

/-- C4 (amended): `does_next_action_require_vm` returns true iff some
successor obtained from the unconditional forms of `InvokeNext` (a single
string as a singleton, a list as itself; a conditional dict or an absent
field contributing no successors) has the `RequiresVM` flag; consequently
it agrees with the spec's flattened-successor semantics exactly when
`InvokeNext` is not a conditional map. -/
theorem next_requires_vm_characterization (al : ActionList) (current : String) :
    (does_next_action_require_vm al current = true ↔
      ∃ n, n ∈ codeNextActions (actionGet al current).invokeNext ∧
        (actionGet al n).requiresVM = true) ∧
    (isCondNext (actionGet al current).invokeNext = false →
      does_next_action_require_vm al current = specNextRequiresResource al current) := by
  constructor
  · simp [does_next_action_require_vm, List.any_eq_true]
  · intro hnc
    unfold does_next_action_require_vm specNextRequiresResource
    cases hv : (actionGet al current).invokeNext with
    | none => rfl
    | some v =>
      cases v with
      | str s => rfl
      | list l => rfl
      | cond t f => rw [hv] at hnc; cases hnc

/-- Witness for the amended C4 theorem: on a workflow whose start action
has a list-valued `InvokeNext`, the code agrees with the spec semantics. -/
theorem next_requires_vm_characterization_witness :
    does_next_action_require_vm
        [("a", ⟨some (InvokeNext.list ["b"]), false⟩), ("b", ⟨none, true⟩)] "a" =
      specNextRequiresResource
        [("a", ⟨some (InvokeNext.list ["b"]), false⟩), ("b", ⟨none, true⟩)] "a" :=
  (next_requires_vm_characterization
    [("a", ⟨some (InvokeNext.list ["b"]), false⟩), ("b", ⟨none, true⟩)] "a").2 rfl

/-- invokes models the predecessor test of `get_action_position`
(FaaSr_py/vm/position.py lines 54-62): a config counts as invoking
`target` only when its `InvokeNext` is a list containing `target`
(`isinstance(invoke_next, list) and action_name in invoke_next`) or a
conditional dict one of whose present `True`/`False` branches contains
`target`; a plain-string `InvokeNext` matches neither `isinstance` test
and never counts. -/
def invokes (cfg : ActionConfig) (target : String) : Bool :=
  match cfg.invokeNext with
  | some (InvokeNext.list l) => l.contains target
  | some (InvokeNext.cond t f) =>
    (match t with | some l => l.contains target | none => false) ||
    (match f with | some l => l.contains target | none => false)
  | _ => false

/-- invokeNextTruthy is Python truthiness of the raw
`.get("InvokeNext", [])` value used for `is_last = not next_actions`
(line 69): an absent field (default `[]`), an empty string, an empty list
and an empty conditional dict are falsy; everything else is truthy. -/
def invokeNextTruthy : Option InvokeNext → Bool
  | none => false
  | some (InvokeNext.str s) => decide (s ≠ "")
  | some (InvokeNext.list l) => !l.isEmpty
  | some (InvokeNext.cond t f) => t.isSome || f.isSome

/-- Position is the dict returned by `get_action_position`; `ptype` is its
`type` field. -/
structure Position where
  is_first : Bool
  is_last : Bool
  ptype : String
deriving DecidableEq, Repr

/-- get_action_position (FaaSr_py/vm/position.py lines 39-83): collects
the invoking actions, sets `is_first` when there are none, `is_last` from
the truthiness of the action's own `InvokeNext`, and classifies the
position. -/
def get_action_position (al : ActionList) (name : String) : Position :=
  let invoking := (al.filter (fun p => invokes p.2 name)).map Prod.fst
  let isF := decide (invoking.length = 0)
  let isL := !invokeNextTruthy (actionGet al name).invokeNext
  ⟨isF, isL,
    if isF && isL then "only"
    else if isF then "first"
    else if isL then "last"
    else "middle"⟩

/-- C10: `get_action_position` counts a predecessor only through
list-valued or conditional `InvokeNext` (captured by `invokes`): (a) an
entry whose `InvokeNext` references `name` only as a single plain string
never counts, so if every entry either names `name` as a single string or
does not reference it at all, `name` has `is_first = true`; (b) yet that
same non-empty string form keeps the declaring action's own `is_last`
false. -/
theorem get_action_position_string_form (al : ActionList) (name : String) :
    ((∀ p ∈ al, p.2.invokeNext = some (InvokeNext.str name) ∨ invokes p.2 name = false) →
      (get_action_position al name).is_first = true) ∧
    (∀ cfg s, lookupA al name = some cfg → cfg.invokeNext = some (InvokeNext.str s) →
      s ≠ "" → (get_action_position al name).is_last = false) := by
  constructor
  · intro h
    have hfilter : al.filter (fun p => invokes p.2 name) = [] := by
      rw [List.filter_eq_nil_iff]
      intro p hp
      rcases h p hp with hs | hf
      · simp [invokes, hs]
      · simp [hf]
    simp [get_action_position, hfilter]
  · intro cfg s hl hs hns
    simp [get_action_position, actionGet, hl, hs, invokeNextTruthy, hns]

/-- c10Al: action `p` declares its successor `a` as a single plain string. -/
def c10Al : ActionList :=
  [("p", ⟨some (InvokeNext.str "a"), false⟩), ("a", ⟨none, false⟩)]

/-- Witness for C10 on `c10Al`: `a` is reported first even though `p`
names it, while `p` itself is not reported last. -/
theorem get_action_position_string_form_witness :
    (get_action_position c10Al "a").is_first = true ∧
    (get_action_position c10Al "p").is_last = false :=
  ⟨(get_action_position_string_form c10Al "a").1 (by decide),
   (get_action_position_string_form c10Al "p").2 ⟨some (InvokeNext.str "a"), false⟩ "a"
     rfl rfl (by decide)⟩

/-- VMConfig models the `VMConfig` dict: string keys mapping to either a
string or Python `None` (the inner `Option`); an absent key is `none` at
the outer level of `getV`. -/
abbrev VMConfig := List (String × Option String)

/-- getV is dict lookup distinguishing an absent key from a key mapped to
`None`. -/
def getV : VMConfig → String → Option (Option String)
  | [], _ => none
  | p :: rest, k => if p.1 = k then some p.2 else getV rest k

/-- pyGet models Python `cfg.get(k)`: an absent key and a `None` value
both give `None`. -/
def pyGet (cfg : VMConfig) (k : String) : Option String :=
  (getV cfg k).getD none

/-- hasKey models `k in cfg`. -/
def hasKey (cfg : VMConfig) (k : String) : Bool :=
  (getV cfg k).isSome

/-- truthyS is Python truthiness of a string-or-None value. -/
def truthyS : Option String → Bool
  | some s => decide (s ≠ "")
  | none => false

/-- setV models dict assignment `cfg[k] = v`: replace the existing entry
or append a fresh one. -/
def setV : VMConfig → String → Option String → VMConfig
  | [], k, v => [(k, v)]
  | p :: rest, k, v => if p.1 = k then (k, v) :: rest else p :: setV rest k v

/-- regionOf models `vm_config.get("Region", "us-east-1")`: the default
applies only when the key is absent (a key mapped to `None` stays
`None`). -/
def regionOf (cfg : VMConfig) : Option String :=
  match getV cfg "Region" with
  | some v => v
  | none => some "us-east-1"

/-- paramsOk models `all([instance_id, region, access_key, secret_key])`
shared by start_vm / stop_vm / check_vm_status in
FaaSr_py/vm/providers/aws.py (note `region` is defaulted and therefore
truthy whenever the key is simply absent). -/
def paramsOk (cfg : VMConfig) : Bool :=
  truthyS (pyGet cfg "InstanceId") && truthyS (regionOf cfg) &&
  truthyS (pyGet cfg "AccessKey") && truthyS (pyGet cfg "SecretKey")

/-- VMStatusBundle is the dict returned by `check_vm_status`. -/
structure VMStatusBundle where
  instance_running : Bool
  status_checks_passed : Bool
  instance_state : String
deriving DecidableEq, Repr

/-- AwsEnv supplies the EC2 API outcomes: `describeStatus` is the combined
result of `describe_instances` / `describe_instance_status` as computed in
aws.py lines 139-171 (an error models a raised exception, including the
"Instance not found" ValueError); `startResp` and `stopResp` are the lists
of `CurrentState` names returned by `start_instances` / `stop_instances`
(an error models a raised exception from the call). -/
structure AwsEnv where
  describeStatus : Except String VMStatusBundle
  startResp : Except String (List String)
  stopResp : Except String (List String)

/-- check_vm_status (aws.py lines 112-171): validates the four required
parameters, then reports the provider-observed status. -/
def check_vm_status (cfg : VMConfig) (env : AwsEnv) : Except String VMStatusBundle :=
  if paramsOk cfg = false then
    Except.error "Missing required VM configuration parameters"
  else env.describeStatus

/-- VMDetails is the dict returned by `start_vm`. -/
structure VMDetails where
  instanceId : String
  state : String
  provider : String
deriving DecidableEq, Repr

/-- instanceIdOf reads the instance id (truthy whenever `paramsOk`). -/
def instanceIdOf (cfg : VMConfig) : String :=
  (pyGet cfg "InstanceId").getD ""

/-- startInstancesCall is the `ec2.start_instances` block of `start_vm`
(aws.py lines 52-68).  The second component records that a start command
was issued to the provider.  An empty response raises, and any exception
is re-raised as a RuntimeError. -/
def startInstancesCall (cfg : VMConfig) (env : AwsEnv) : Except String VMDetails × Bool :=
  match env.startResp with
  | Except.ok (stateName :: _) => (Except.ok ⟨instanceIdOf cfg, stateName, "AWS"⟩, true)
  | Except.ok [] => (Except.error "Failed to start instance - no instances returned", true)
  | Except.error e => (Except.error ("Failed to start instance: " ++ e), true)

/-- start_vm (aws.py lines 11-68): validates parameters, checks the
current instance state (an exception there is logged and ignored), returns
immediately with state `"running"` when the instance is already running,
and otherwise issues the start command. -/
def start_vm (cfg : VMConfig) (env : AwsEnv) : Except String VMDetails × Bool :=
  if paramsOk cfg = false then
    (Except.error "Missing required VM configuration parameters", false)
  else
    match check_vm_status cfg env with
    | Except.ok st =>
      if st.instance_running then
        (Except.ok ⟨instanceIdOf cfg, "running", "AWS"⟩, false)
      else startInstancesCall cfg env
    | Except.error _ => startInstancesCall cfg env

theorem startInstancesCall_snd (cfg : VMConfig) (env : AwsEnv) :
    (startInstancesCall cfg env).2 = true := by
  unfold startInstancesCall
  cases hr : env.startResp with
  | error e => rfl
  | ok l => cases l <;> rfl

theorem startInstancesCall_fst (cfg : VMConfig) (env : AwsEnv)
    (stateName : String) (rest : List String)
    (h : env.startResp = Except.ok (stateName :: rest)) :
    (startInstancesCall cfg env).1 = Except.ok ⟨instanceIdOf cfg, stateName, "AWS"⟩ := by
  unfold startInstancesCall
  rw [h]

/-- C5: `start_vm` is idempotent in the claimed sense: with a valid
configuration, if the status check observes the instance already running
it returns the observed running state immediately and issues no start
command; otherwise (the check errors or observes not-running) it issues a
start command and, on a successful provider response, returns the
provider-reported transitional state. -/
theorem start_vm_idempotent (cfg : VMConfig) (env : AwsEnv)
    (hok : paramsOk cfg = true) :
    (∀ st, check_vm_status cfg env = Except.ok st → st.instance_running = true →
      start_vm cfg env = (Except.ok ⟨instanceIdOf cfg, "running", "AWS"⟩, false)) ∧
    ((∀ st, check_vm_status cfg env = Except.ok st → st.instance_running = false) →
      (start_vm cfg env).2 = true ∧
      ∀ stateName rest, env.startResp = Except.ok (stateName :: rest) →
        (start_vm cfg env).1 = Except.ok ⟨instanceIdOf cfg, stateName, "AWS"⟩) := by
  constructor
  · intro st hst hrun
    unfold start_vm
    rw [if_neg (by simp [hok]), hst]
    simp [hrun]
  · intro hns
    unfold start_vm
    rw [if_neg (by simp [hok])]
    cases hst : check_vm_status cfg env with
    | ok st =>
      simp only [hns st hst, Bool.false_eq_true, if_false]
      exact ⟨startInstancesCall_snd cfg env,
        fun stateName rest h => startInstancesCall_fst cfg env stateName rest h⟩
    | error e =>
      exact ⟨startInstancesCall_snd cfg env,
        fun stateName rest h => startInstancesCall_fst cfg env stateName rest h⟩

/-- c5cfg is a fully populated VM configuration. -/
def c5cfg : VMConfig :=
  [("InstanceId", some "i-1"), ("Region", some "us-east-1"),
   ("AccessKey", some "k"), ("SecretKey", some "s")]

/-- c5envRunning is a provider environment observing a healthy running
instance. -/
def c5envRunning : AwsEnv :=
  ⟨Except.ok ⟨true, true, "running"⟩, Except.ok ["pending"], Except.ok ["stopping"]⟩

/-- Witness for C5: starting an already-running instance returns the
observed running state without a start command. -/
theorem start_vm_idempotent_witness :
    start_vm c5cfg c5envRunning = (Except.ok ⟨instanceIdOf c5cfg, "running", "AWS"⟩, false) :=
  (start_vm_idempotent c5cfg c5envRunning (by decide)).1 ⟨true, true, "running"⟩ rfl rfl

/-- stop_vm (aws.py lines 70-110): validates parameters (raising a
ValueError, modelled as the error case), then issues the stop command; an
empty response or a raised exception from the call is caught by the
function's own handler, which logs and returns `False`.  The second
component records that a stop command was issued to the provider. -/
def stop_vm (cfg : VMConfig) (env : AwsEnv) : Except String Bool × Bool :=
  if paramsOk cfg = false then
    (Except.error "Missing required VM configuration parameters", false)
  else
    match env.stopResp with
    | Except.ok (_ :: _) => (Except.ok true, true)
    | Except.ok [] => (Except.ok false, true)
    | Except.error _ => (Except.ok false, true)

/-- injectCreds is the credential injection of vm_stop.py lines 30-36:
when `Name` is truthy, `AccessKey`/`SecretKey` are assigned from the
environment (possibly `None`). -/
def injectCreds (cfg : VMConfig) (getenv : String → Option String) : VMConfig :=
  if truthyS (pyGet cfg "Name") then
    setV (setV cfg "AccessKey" (getenv ((pyGet cfg "Name").getD "" ++ "_AccessKey")))
      "SecretKey" (getenv ((pyGet cfg "Name").getD "" ++ "_SecretKey"))
  else cfg

/-- BuiltinEnv is the external environment of the builtin functions:
`getenv` is `os.getenv`, `aws` the EC2 API outcomes, and `importFails`
whether the in-function `import` statements raise (in the checked source
tree `FaaSr_py.vm.aws` is not importable; the module is part of the
repository outside the checked tree, so both outcomes are modelled). -/
structure BuiltinEnv where
  getenv : String → Option String
  aws : AwsEnv
  importFails : Bool

/-- vmStopAttempt is the tail of vm_stop.py's outer `try` (lines 51-60):
log the instance id (a missing `InstanceId` key raises a KeyError caught
by the outer handler, which returns True), call `stop_vm` — its ValueError
is likewise caught (returning True), its normal return value is ignored —
and return True; either way the issued flag is whatever the call
recorded. -/
def vmStopAttempt (cfg : VMConfig) (env : BuiltinEnv) : Bool × Bool :=
  if hasKey cfg "InstanceId" = false then (true, false)
  else (true, (stop_vm cfg env.aws).2)

/-- vmStopOnStatus is the inner `try` of vm_stop.py (lines 43-49) applied
to the outcome of `check_vm_status`: when the instance is observed not
running, log and return True — except that the log line raises a KeyError
on a missing `InstanceId`, caught by the inner handler, falling through to
the stop attempt; a status-check exception likewise falls through to the
stop attempt. -/
def vmStopOnStatus (cfg : VMConfig) (env : BuiltinEnv) :
    Except String VMStatusBundle → Bool × Bool
  | Except.ok st =>
    if st.instance_running = false then
      (if hasKey cfg "InstanceId" then (true, false) else vmStopAttempt cfg env)
    else vmStopAttempt cfg env
  | Except.error _ => vmStopAttempt cfg env

/-- vm_stop (FaaSr_py/builtin_functions/vm_stop.py lines 10-60): returns
True when `VMConfig` is absent; otherwise injects credentials and runs the
outer `try` (whose handler always returns True): a failed import returns
True, else the status check drives `vmStopOnStatus`.  The second component
records whether a stop command was issued. -/
def vm_stop (vmConfig? : Option VMConfig) (env : BuiltinEnv) : Bool × Bool :=
  match vmConfig? with
  | none => (true, false)
  | some cfg0 =>
    if env.importFails then (true, false)
    else vmStopOnStatus (injectCreds cfg0 env.getenv) env
      (check_vm_status (injectCreds cfg0 env.getenv) env.aws)

theorem vmStopAttempt_fst (cfg : VMConfig) (env : BuiltinEnv) :
    (vmStopAttempt cfg env).1 = true := by
  unfold vmStopAttempt
  split_ifs <;> rfl

theorem stop_vm_snd (cfg : VMConfig) (env : AwsEnv) (h : paramsOk cfg = true) :
    (stop_vm cfg env).2 = true := by
  unfold stop_vm
  rw [if_neg (by simp [h])]
  cases hr : env.stopResp with
  | error e => rfl
  | ok l => cases l <;> rfl

theorem vmStopAttempt_snd (cfg : VMConfig) (env : BuiltinEnv)
    (hid : hasKey cfg "InstanceId" = true) (hp : paramsOk cfg = true) :
    (vmStopAttempt cfg env).2 = true := by
  unfold vmStopAttempt
  rw [if_neg (by simp [hid])]
  exact stop_vm_snd cfg env.aws hp

theorem vmStopOnStatus_fst (cfg : VMConfig) (env : BuiltinEnv)
    (r : Except String VMStatusBundle) : (vmStopOnStatus cfg env r).1 = true := by
  cases r with
  | error e => exact vmStopAttempt_fst cfg env
  | ok st =>
    simp only [vmStopOnStatus]
    split_ifs <;> first | rfl | exact vmStopAttempt_fst cfg env

/-- C9: for every input payload and environment the builtin `vm_stop`
returns True — whether `VMConfig` is absent, the imports fail, the status
check errors, the configuration is incomplete, or the provider stop call
fails — so no teardown failure ever propagates to the caller. -/
theorem vm_stop_always_returns_true (vmConfig? : Option VMConfig) (env : BuiltinEnv) :
    (vm_stop vmConfig? env).1 = true := by
  cases vmConfig? with
  | none => rfl
  | some cfg0 =>
    simp only [vm_stop]
    split_ifs
    · rfl
    · exact vmStopOnStatus_fst _ env _

/-- C7: the teardown path checks the current instance state before acting:
when the status check observes the instance already stopped (and the
config carries an `InstanceId` for the log line), `vm_stop` returns True
without issuing any stop command; when it observes the instance running
(with a complete configuration) a stop command is issued. -/
theorem vm_stop_noop_when_stopped (cfg : VMConfig) (env : BuiltinEnv) (st : VMStatusBundle)
    (himp : env.importFails = false)
    (hchk : check_vm_status (injectCreds cfg env.getenv) env.aws = Except.ok st)
    (hid : hasKey (injectCreds cfg env.getenv) "InstanceId" = true) :
    (st.instance_running = false → vm_stop (some cfg) env = (true, false)) ∧
    (st.instance_running = true → paramsOk (injectCreds cfg env.getenv) = true →
      (vm_stop (some cfg) env).2 = true) := by
  constructor
  · intro hrun
    simp only [vm_stop, himp, if_false, Bool.false_eq_true, hchk, vmStopOnStatus]
    simp [hrun, hid]
  · intro hrun hp
    simp only [vm_stop, himp, if_false, Bool.false_eq_true, hchk, vmStopOnStatus]
    simp only [hrun, Bool.true_eq_false, if_false]
    exact vmStopAttempt_snd _ env hid hp

/-- c7cfg is a VM configuration with a name and instance id. -/
def c7cfg : VMConfig :=
  [("Name", some "vm"), ("InstanceId", some "i-1"), ("Region", some "us-east-1")]

/-- c7env observes the instance already stopped. -/
def c7env : BuiltinEnv :=
  ⟨fun _ => some "secret",
   ⟨Except.ok ⟨false, false, "stopped"⟩, Except.ok ["pending"], Except.ok ["stopping"]⟩,
   false⟩

/-- Witness for C7: stopping an already-stopped instance returns True with
no stop command issued. -/
theorem vm_stop_noop_when_stopped_witness :
    vm_stop (some c7cfg) c7env = (true, false) :=
  (vm_stop_noop_when_stopped c7cfg c7env ⟨false, false, "stopped"⟩ rfl rfl rfl).1 rfl

/-- validate_vm_config (faasr_backend/FaaSr_py/vm/detection.py lines
62-80), with its `for field in required_fields` loop unrolled over the
literal list `["Provider", "InstanceId", "Region", "AccessKey",
"SecretKey"]`: a field that is absent or falsy raises a ValueError
(modelled as the error case), then a non-AWS provider raises. -/
def validate_vm_config (cfg : VMConfig) : Except String Bool :=
  if truthyS (pyGet cfg "Provider") = false then
    Except.error "Missing required VM configuration field: Provider"
  else if truthyS (pyGet cfg "InstanceId") = false then
    Except.error "Missing required VM configuration field: InstanceId"
  else if truthyS (pyGet cfg "Region") = false then
    Except.error "Missing required VM configuration field: Region"
  else if truthyS (pyGet cfg "AccessKey") = false then
    Except.error "Missing required VM configuration field: AccessKey"
  else if truthyS (pyGet cfg "SecretKey") = false then
    Except.error "Missing required VM configuration field: SecretKey"
  else if pyGet cfg "Provider" ≠ some "AWS" then
    Except.error "Unsupported VM provider"
  else Except.ok true

/-- VmStartEnv extends the builtin environment for vm_start.py:
`waitReady` is the outcome of the `wait_for_vm_ready` call (in the checked
source tree that call raises a TypeError — see the C6 analysis — which the
error case also covers), and `runnerPhase` the outcome of the GitHub
runner verification section (lines 75-117). -/
structure VmStartEnv where
  getenv : String → Option String
  aws : AwsEnv
  waitReady : Except String Unit
  runnerPhase : Except String Bool

/-- provisionAttempt is the inner `try` of vm_start.py (lines 60-69):
check the VM status; when running and healthy, done; otherwise start the
VM and wait for readiness.  Any error is the raised exception caught by
the inner handler. -/
def provisionAttempt (cfg : VMConfig) (env : VmStartEnv) : Except String Unit :=
  match check_vm_status cfg env.aws with
  | Except.error e => Except.error e
  | Except.ok st =>
    if st.instance_running && st.status_checks_passed then Except.ok ()
    else
      match (start_vm cfg env.aws).1 with
      | Except.error e => Except.error e
      | Except.ok _ => env.waitReady

/-- vm_start_provision is vm_start.py lines 59-117: run the inner try; on
failure, retry start + wait (lines 70-73) whose exceptions reach the outer
handler and are re-raised; on success run the runner-verification phase.
The second component records that cloud-provider network calls were
made. -/
def vm_start_provision (cfg : VMConfig) (env : VmStartEnv) : Except String Bool × Bool :=
  match provisionAttempt cfg env with
  | Except.ok _ => (env.runnerPhase, true)
  | Except.error _ =>
    match (start_vm cfg env.aws).1 with
    | Except.error e => (Except.error ("Failed to start VM: " ++ e), true)
    | Except.ok _ =>
      match env.waitReady with
      | Except.error e => (Except.error ("Failed to start VM: " ++ e), true)
      | Except.ok _ => (env.runnerPhase, true)

/-- vm_start (FaaSr_py/builtin_functions/vm_start.py lines 11-121): raise
when `VMConfig` is absent, when `Name` is falsy or when either
environment credential is falsy; inject the credentials; validate the
configuration (a ValueError is re-raised by the outer handler); then
provision.  The second component records whether any cloud-provider
network call was made. -/
def vm_start (vmConfig? : Option VMConfig) (env : VmStartEnv) : Except String Bool × Bool :=
  match vmConfig? with
  | none => (Except.error "VMConfig required for VM start action", false)
  | some cfg0 =>
    if truthyS (pyGet cfg0 "Name") = false then
      (Except.error "VMConfig.Name is required", false)
    else if truthyS (env.getenv ((pyGet cfg0 "Name").getD "" ++ "_AccessKey")) = false ||
            truthyS (env.getenv ((pyGet cfg0 "Name").getD "" ++ "_SecretKey")) = false then
      (Except.error "VM credentials not found", false)
    else
      match validate_vm_config
          (setV (setV cfg0 "AccessKey"
              (env.getenv ((pyGet cfg0 "Name").getD "" ++ "_AccessKey")))
            "SecretKey" (env.getenv ((pyGet cfg0 "Name").getD "" ++ "_SecretKey"))) with
      | Except.error e => (Except.error e, false)
      | Except.ok _ =>
        vm_start_provision
          (setV (setV cfg0 "AccessKey"
              (env.getenv ((pyGet cfg0 "Name").getD "" ++ "_AccessKey")))
            "SecretKey" (env.getenv ((pyGet cfg0 "Name").getD "" ++ "_SecretKey"))) env

/-- exceptIsError discriminates the raised-exception case. -/
def exceptIsError (e : Except String Bool) : Bool :=
  match e with
  | Except.error _ => true
  | Except.ok _ => false

theorem getV_setV_ne (cfg : VMConfig) (k k2 : String) (v : Option String)
    (h : k ≠ k2) : getV (setV cfg k2 v) k = getV cfg k := by
  induction cfg with
  | nil =>
    simp only [setV, getV]
    rw [if_neg (fun hh => h hh.symm)]
  | cons p rest ih =>
    by_cases hp : p.1 = k2
    · simp only [setV, if_pos hp, getV]
      rw [if_neg (fun hh => h hh.symm), if_neg (by rw [hp]; exact fun hh => h hh.symm)]
    · simp only [setV, if_neg hp, getV]
      by_cases hk : p.1 = k
      · rw [if_pos hk, if_pos hk]
      · rw [if_neg hk, if_neg hk, ih]

theorem validate_vm_config_region_falsy_is_error (cfg : VMConfig)
    (h : truthyS (pyGet cfg "Region") = false) :
    ∃ e, validate_vm_config cfg = Except.error e := by
  unfold validate_vm_config
  by_cases h1 : truthyS (pyGet cfg "Provider") = false
  · rw [if_pos h1]; exact ⟨_, rfl⟩
  · rw [if_neg h1]
    by_cases h2 : truthyS (pyGet cfg "InstanceId") = false
    · rw [if_pos h2]; exact ⟨_, rfl⟩
    · rw [if_neg h2, if_pos h]; exact ⟨_, rfl⟩

/-- C8: for every VM configuration in which the `Region` key is absent,
the start operation (vm_start, which validates the configuration via
`validate_vm_config` before any provider interaction) fails with a
configuration error and performs no cloud-provider network call. -/
theorem vm_start_missing_region_config_error (cfg : VMConfig) (env : VmStartEnv)
    (hreg : getV cfg "Region" = none) :
    exceptIsError (vm_start (some cfg) env).1 = true ∧
    (vm_start (some cfg) env).2 = false := by
  simp only [vm_start]
  by_cases hn : truthyS (pyGet cfg "Name") = false
  · rw [if_pos hn]; exact ⟨rfl, rfl⟩
  · rw [if_neg hn]
    by_cases hc : truthyS (env.getenv ((pyGet cfg "Name").getD "" ++ "_AccessKey")) = false ||
        truthyS (env.getenv ((pyGet cfg "Name").getD "" ++ "_SecretKey")) = false
    · rw [if_pos hc]; exact ⟨rfl, rfl⟩
    · rw [if_neg hc]
      have hregion : truthyS (pyGet
          (setV (setV cfg "AccessKey"
              (env.getenv ((pyGet cfg "Name").getD "" ++ "_AccessKey")))
            "SecretKey" (env.getenv ((pyGet cfg "Name").getD "" ++ "_SecretKey")))
          "Region") = false := by
        unfold pyGet
        rw [getV_setV_ne _ _ _ _ (by decide), getV_setV_ne _ _ _ _ (by decide), hreg]
        rfl
      obtain ⟨e, he⟩ := validate_vm_config_region_falsy_is_error _ hregion
      rw [he]
      exact ⟨rfl, rfl⟩

/-- c8cfg has `Name`, `Provider` and `InstanceId` but no `Region` key. -/
def c8cfg : VMConfig :=
  [("Name", some "vm"), ("Provider", some "AWS"), ("InstanceId", some "i-1")]

/-- c8env supplies credentials and benign provider outcomes. -/
def c8env : VmStartEnv :=
  ⟨fun _ => some "secret",
   ⟨Except.ok ⟨false, false, "stopped"⟩, Except.ok ["pending"], Except.ok ["stopping"]⟩,
   Except.ok (), Except.ok true⟩

/-- Witness for C8 at a concrete Region-less configuration. -/
theorem vm_start_missing_region_config_error_witness :
    exceptIsError (vm_start (some c8cfg) c8env).1 = true ∧
    (vm_start (some c8cfg) c8env).2 = false :=
  vm_start_missing_region_config_error c8cfg c8env rfl

/-- wait_for_vm_ready_paramNames is the parameter list of
`wait_for_vm_ready` as defined in FaaSr_py/vm/providers/aws.py line 173:
`def wait_for_vm_ready(vm_config, vm_details)` — two positional
parameters, no defaults, no keyword catch-all. -/
def wait_for_vm_ready_paramNames : List String := ["vm_config", "vm_details"]

/-- vmPollWaitReadyKeywords is the keyword-argument set of the call
`wait_for_vm_ready(vm_config, vm_details=None, skip_runner_wait=skip_fixed_wait)`
at FaaSr_py/builtin_functions/vm_poll.py line 59 (vm_start.py lines 69 and
73 pass the same keyword). -/
def vmPollWaitReadyKeywords : List String := ["vm_details", "skip_runner_wait"]

/-- bindPythonCall models CPython argument binding for a function with the
given parameter names, no defaults, no `*args`/`**kwargs`: the call binds
iff the positional count fits, every keyword names a parameter not already
bound positionally, and every parameter ends up bound. -/
def bindPythonCall (params : List String) (positional : Nat) (kwargs : List String) : Bool :=
  decide (positional ≤ params.length) &&
  kwargs.all (fun kw => params.contains kw && !((params.take positional).contains kw)) &&
  (params.drop positional).all (fun p => kwargs.contains p)

/-- C6: the claim says `wait_ready` takes `(config, started_details,
skip_runner_wait)` and that a caller passing `skip_runner_wait` succeeds.
In the source, `wait_for_vm_ready` accepts only `(vm_config, vm_details)`,
so the call made by vm_poll (and vm_start) does not bind: the keyword
`skip_runner_wait` names no parameter, which at runtime is a TypeError. -/
theorem wait_ready_call_binding_fails :
    bindPythonCall wait_for_vm_ready_paramNames 1 vmPollWaitReadyKeywords = false ∧
    wait_for_vm_ready_paramNames.contains "skip_runner_wait" = false := by
  constructor <;> rfl
